import Mathlib

/-!
Shallow embedding of the GreenOps backend planning engine
(src/server.js): region catalog, score normalization, latency
proxy scoring, strategy weights, replica estimation, Kubernetes
manifest generation, carbon-intensity fetching with fallback, and
the /api/plan request handler.  Scores and weights are modelled
with exact rational arithmetic; the asynchronous Electricity Maps
fetch is modelled by an explicit outcome parameter.
-/

namespace GreenOps

/-- Region record mirroring the entries of the REGIONS array. -/
structure Region where
  id : String
  label : String
  defaultCarbonIntensity : ℚ
  baseCost : ℚ
  geoGroup : String
deriving DecidableEq

/-- The REGIONS catalog (src/server.js, lines 51-94). -/
def REGIONS : List Region :=
  [ { id := "LON1", label := "London, UK", defaultCarbonIntensity := 260, baseCost := 0.24, geoGroup := "eu" },
    { id := "FRA1", label := "Frankfurt, Germany", defaultCarbonIntensity := 210, baseCost := 0.26, geoGroup := "eu" },
    { id := "NYC1", label := "New York, USA", defaultCarbonIntensity := 390, baseCost := 0.23, geoGroup := "us-east" },
    { id := "SFO1", label := "San Francisco, USA", defaultCarbonIntensity := 380, baseCost := 0.27, geoGroup := "us-west" },
    { id := "BLR1", label := "Bengaluru, India", defaultCarbonIntensity := 650, baseCost := 0.18, geoGroup := "ap-south" },
    { id := "SGP1", label := "Singapore", defaultCarbonIntensity := 510, baseCost := 0.21, geoGroup := "ap-southeast" } ]

/-- Placeholder region used only as a getD default when indexing. -/
def defaultRegion : Region :=
  { id := "", label := "", defaultCarbonIntensity := 0, baseCost := 0, geoGroup := "" }

instance : Inhabited Region := ⟨defaultRegion⟩

/-- Math.min(...v) over a nonempty vector (0 on [] is never used:
the [] case is guarded in normalizeScores). -/
def listMinQ : List ℚ → ℚ
  | [] => 0
  | x :: xs => xs.foldl min x

/-- Math.max(...v) over a nonempty vector. -/
def listMaxQ : List ℚ → ℚ
  | [] => 0
  | x :: xs => xs.foldl max x

/-- The optional negation step of normalizeScores: `invert` maps
each value to its negation so that lower input means higher score. -/
def invertedValues (values : List ℚ) (invert : Bool) : List ℚ :=
  if invert then values.map (fun x => -x) else values

/-- normalizeScores (src/server.js, lines 113-126): min-max scaling
to [0,1]; all-equal vectors get the neutral score 0.7; empty input
yields empty output. -/
def normalizeScores (values : List ℚ) (invert : Bool) : List ℚ :=
  if values.isEmpty then []
  else
    let v := invertedValues values invert
    let mn := listMinQ v
    let mx := listMaxQ v
    if mx = mn then v.map (fun _ => (0.7 : ℚ))
    else v.map (fun x => (x - mn) / (mx - mn))

/-- Boolean prefix test on the underlying character lists, used to
model JavaScript String.prototype.startsWith in latencyBaseScore. -/
def strStartsWith (s pre : String) : Bool := pre.data.isPrefixOf s.data

/-- latencyBaseScore (src/server.js, lines 128-175): proximity table
from the caller's declared region affinity to a candidate region's
geography group; unrecognized or global affinity, and any pair not
covered by the table, score 0.6. -/
def latencyBaseScore (userRegion : String) (region : Region) : ℚ :=
  let target :=
    if userRegion = "ap-south" then "ap-south"
    else if userRegion = "eu-west" then "eu"
    else if userRegion = "us-east" then "us-east"
    else if userRegion = "us-west" then "us-west"
    else if userRegion = "global" then "global"
    else "global"
  if target = "global" then 0.6
  else if target = "ap-south" then
    if region.geoGroup = "ap-south" then 1.0
    else if region.geoGroup = "ap-southeast" then 0.85
    else if region.geoGroup = "eu" then 0.6
    else if strStartsWith region.geoGroup "us" then 0.45
    else 0.6
  else if target = "eu" then
    if region.geoGroup = "eu" then 1.0
    else if region.geoGroup = "us-east" then 0.8
    else if region.geoGroup = "us-west" then 0.7
    else if strStartsWith region.geoGroup "ap" then 0.55
    else 0.6
  else if target = "us-east" then
    if region.geoGroup = "us-east" then 1.0
    else if region.geoGroup = "eu" then 0.8
    else if region.geoGroup = "us-west" then 0.75
    else if strStartsWith region.geoGroup "ap" then 0.5
    else 0.6
  else if target = "us-west" then
    if region.geoGroup = "us-west" then 1.0
    else if region.geoGroup = "us-east" then 0.8
    else if region.geoGroup = "ap-southeast" then 0.7
    else if region.geoGroup = "eu" then 0.6
    else if region.geoGroup = "ap-south" then 0.5
    else 0.6
  else 0.6

/-- The (co2, latency, cost) weight triple returned by getWeights. -/
structure Weights where
  co2 : ℚ
  latency : ℚ
  cost : ℚ
deriving DecidableEq

/-- getWeights (src/server.js, lines 178-216): base weights per
strategy (the switch falls through to the balanced weights for
"balanced" and for every unrecognized value), multiplicative
latency-tolerance adjustment, then renormalization to sum 1. -/
def getWeights (strategy latencyTolerance : String) : Weights :=
  let base : ℚ × ℚ × ℚ :=
    if strategy = "max-green" then (0.6, 0.25, 0.15)
    else if strategy = "budget" then (0.15, 0.25, 0.6)
    else (0.34, 0.33, 0.33)
  let adj : ℚ × ℚ × ℚ :=
    if latencyTolerance = "strict" then (base.1 * 0.9, base.2.1 * 1.2, base.2.2 * 0.9)
    else if latencyTolerance = "relaxed" then (base.1 * 1.1, base.2.1 * 0.7, base.2.2 * 1.1)
    else base
  let sum := adj.1 + adj.2.1 + adj.2.2
  { co2 := adj.1 / sum, latency := adj.2.1 / sum, cost := adj.2.2 / sum }

/-- A workload component supplied by the caller: display name and
type tag. -/
structure Component where
  name : String
  type : String
deriving DecidableEq

/-- The runtime type set (src/server.js, lines 219 and 236). -/
def runtimeTypes : List String := ["api-gateway", "frontend", "container", "function"]

/-- Membership of a component's type in the runtime set. -/
def isRuntime (c : Component) : Bool := runtimeTypes.contains c.type

/-- countRuntimeComponents (src/server.js, lines 218-221). -/
def countRuntimeComponents (components : List Component) : ℕ :=
  (components.filter isRuntime).length

/-- calcReplicas (src/server.js, lines 223-233): ceil(runtimeCount/2)
floored at 1, +1 for strict tolerance with more than one runtime
component, clamped at 4.  Math.ceil(runtimeCount/2) on a natural
number is (runtimeCount+1)/2 in natural division. -/
def calcReplicas (components : List Component) (latencyTolerance : String) : ℕ :=
  let runtimeCount := countRuntimeComponents components
  let base := max 1 ((runtimeCount + 1) / 2)
  let adjusted := if latencyTolerance = "strict" ∧ runtimeCount > 1 then base + 1 else base
  if adjusted > 4 then 4 else adjusted

/-- The character sanitization of the regex replace
`[^a-z0-9-] -> "-"` used on component display names. -/
def sanitizeChar (c : Char) : Char :=
  if (97 ≤ c.toNat ∧ c.toNat ≤ 122) ∨ (48 ≤ c.toNat ∧ c.toNat ≤ 57) ∨ c = '-' then c else '-'

/-- `name.toLowerCase().replace(/[^a-z0-9-]/g, "-")` on a component
display name (src/server.js, lines 259-260, 302, 304): lower-case
every character, then replace each character outside [a-z0-9-]. -/
def deriveName (s : String) : String :=
  String.mk ((s.data.map Char.toLower).map sanitizeChar)

/-- The deployment name: the derived name, with fallback "service"
when the derived name is empty (the `|| "service"` of line 260). -/
def safeName (comp : Component) : String :=
  let d := deriveName comp.name
  if d = "" then "service" else d

/-- The namespace block of generateKubernetesYaml (lines 242-250). -/
def namespaceLines (planId : String) : List String :=
  [ "apiVersion: v1",
    "kind: Namespace",
    "metadata:",
    "  name: greenops-app",
    "  labels:",
    "    greenops-plan: " ++ planId,
    "" ]

/-- One Deployment block of generateKubernetesYaml (lines 258-296). -/
def deploymentLines (planId regionId instanceClass : String) (replicas : ℕ)
    (comp : Component) : List String :=
  let s := safeName comp
  [ "---",
    "apiVersion: apps/v1",
    "kind: Deployment",
    "metadata:",
    "  name: " ++ s,
    "  namespace: greenops-app",
    "  labels:",
    "    app: " ++ s,
    "    greenops-plan: " ++ planId,
    "spec:",
    "  replicas: " ++ toString replicas,
    "  selector:",
    "    matchLabels:",
    "      app: " ++ s,
    "  template:",
    "    metadata:",
    "      labels:",
    "        app: " ++ s,
    "        greenops-plan: " ++ planId,
    "    spec:",
    "      containers:",
    "        - name: " ++ s,
    "          image: your-docker-username/" ++ s ++ ":latest",
    "          ports:",
    "            - containerPort: 4000",
    "          env:",
    "            - name: GREENOPS_PLAN_ID",
    "              value: \"" ++ planId ++ "\"",
    "            - name: GREENOPS_REGION",
    "              value: \"" ++ regionId ++ "\"",
    "            - name: GREENOPS_INSTANCE_CLASS",
    "              value: \"" ++ instanceClass ++ "\"",
    "" ]

/-- The Service block of generateKubernetesYaml (lines 307-325). -/
def serviceLines (gatewayName : String) : List String :=
  [ "---",
    "apiVersion: v1",
    "kind: Service",
    "metadata:",
    "  name: " ++ gatewayName ++ "-svc",
    "  namespace: greenops-app",
    "spec:",
    "  type: LoadBalancer",
    "  selector:",
    "    app: " ++ gatewayName,
    "  ports:",
    "    - name: http",
    "      port: 80",
    "      targetPort: 4000",
    "" ]

/-- The gatewayName computation (src/server.js, lines 299-305): the
derived (NOT fallback-protected) name of the api-gateway component
if one exists, else of the first runtime component, else null. -/
def chosenGatewayName (runtimeComponents : List Component) : Option String :=
  match runtimeComponents.find? (fun c => c.type == "api-gateway") with
  | some g => some (deriveName g.name)
  | none =>
    match runtimeComponents with
    | [] => none
    | c :: _ => some (deriveName c.name)

/-- generateKubernetesYaml (src/server.js, lines 235-328) as the list
of emitted lines.  The Service block is emitted only when gatewayName
is truthy, i.e. non-null and non-empty. -/
def generateKubernetesYamlLines (planId regionId instanceClass : String) (replicas : ℕ)
    (components : List Component) : List String :=
  let runtimeComponents := components.filter isRuntime
  let nsL := namespaceLines planId
  if runtimeComponents.isEmpty then nsL
  else
    let depL := nsL ++ (runtimeComponents.map (deploymentLines planId regionId instanceClass replicas)).flatten
    match chosenGatewayName runtimeComponents with
    | none => depL
    | some g => if g = "" then depL else depL ++ serviceLines g

/-- generateKubernetesYaml's final string: lines joined with newline. -/
def generateKubernetesYaml (planId regionId instanceClass : String) (replicas : ℕ)
    (components : List Component) : String :=
  String.intercalate "\n" (generateKubernetesYamlLines planId regionId instanceClass replicas components)

/-- Number of Service blocks in an emitted manifest, observed as the
number of lines equal to "kind: Service". -/
def countServiceLines (lines : List String) : ℕ :=
  (lines.filter (fun l => decide (l = "kind: Service"))).length

/-- REGION_ZONE_MAP (src/server.js, lines 98-105): pseudo CIVO
region id to Electricity Maps zone code. -/
def REGION_ZONE_MAP (id : String) : Option String :=
  if id = "LON1" then some "GB"
  else if id = "FRA1" then some "DE"
  else if id = "NYC1" then some "US-NY-NYIS"
  else if id = "SFO1" then some "US-CAL-CISO"
  else if id = "BLR1" then some "IN"
  else if id = "SGP1" then some "SG"
  else none

/-- A carbon reading: numeric intensity value plus source tag. -/
structure CarbonReading where
  value : ℚ
  source : String
deriving DecidableEq

/-- The observable outcome of the awaited Electricity Maps fetch for
one region: the fetch threw, the response was non-success, or it
succeeded with an optional numeric carbonIntensity field (none models
a payload whose carbonIntensity is missing or non-numeric). -/
inductive FetchOutcome
  | fetchErr
  | notOk
  | ok (carbonIntensity : Option ℚ)
deriving DecidableEq

/-- getCarbonIntensityForRegion (src/server.js, lines 331-394): falls
back to the region's static default (source "fallback-static") when
the API key is empty, the region has no zone mapping, the fetch
throws, the response is non-success, or the payload lacks a numeric
carbonIntensity; otherwise returns the provider value with source
"electricitymaps".  Every branch returns a reading: nothing throws. -/
def getCarbonIntensityForRegion (apiKey : String) (outcome : FetchOutcome)
    (region : Region) : CarbonReading :=
  if apiKey = "" ∨ REGION_ZONE_MAP region.id = none then
    { value := region.defaultCarbonIntensity, source := "fallback-static" }
  else
    match outcome with
    | .fetchErr => { value := region.defaultCarbonIntensity, source := "fallback-static" }
    | .notOk => { value := region.defaultCarbonIntensity, source := "fallback-static" }
    | .ok none => { value := region.defaultCarbonIntensity, source := "fallback-static" }
    | .ok (some ci) => { value := ci, source := "electricitymaps" }

/-- Per-region score record built in /api/plan (lines 456-465). -/
structure RegionScore where
  region : Region
  liveCarbonIntensity : ℚ
  carbonSource : String
  co2 : ℚ
  cost : ℚ
  latency : ℚ
deriving DecidableEq

/-- A RegionScore extended with the strategy-dependent overall score
(the `{...rs, overall}` of line 489). -/
structure ScoredRegion extends RegionScore where
  overall : ℚ
deriving DecidableEq

instance : Inhabited ScoredRegion :=
  ⟨{ region := defaultRegion, liveCarbonIntensity := 0, carbonSource := "",
     co2 := 0, cost := 0, latency := 0, overall := 0 }⟩

/-- Steps 1-2 of /api/plan (lines 444-465): carbon values from the
readings, cost values from the catalog, inverted normalization of
both, latency scores, zipped by index over the REGIONS catalog. -/
def regionScores (userRegion : String) (carbonResults : List CarbonReading) :
    List RegionScore :=
  let carbonValues := carbonResults.map CarbonReading.value
  let costValues := REGIONS.map Region.baseCost
  let co2Scores := normalizeScores carbonValues true
  let costScores := normalizeScores costValues true
  let latencyScores := REGIONS.map (fun r => latencyBaseScore userRegion r)
  (List.range REGIONS.length).map (fun idx =>
    { region := REGIONS.getD idx defaultRegion,
      liveCarbonIntensity := carbonValues.getD idx 0,
      carbonSource := (carbonResults.getD idx { value := 0, source := "" }).source,
      co2 := co2Scores.getD idx 0,
      cost := costScores.getD idx 0,
      latency := latencyScores.getD idx 0 })

/-- The per-region overall score for a weight triple (lines 483-493). -/
def scoreFor (weights : Weights) (rs : RegionScore) : ScoredRegion :=
  { toRegionScore := rs,
    overall := rs.co2 * weights.co2 + rs.latency * weights.latency + rs.cost * weights.cost }

/-- Stable insertion of an element into a list already sorted by
descending overall score: the inserted element (which originates
earlier in the input than every list element) goes before every
element whose overall score it reaches. -/
def insertDesc (x : ScoredRegion) : List ScoredRegion → List ScoredRegion
  | [] => [x]
  | y :: ys => if x.overall ≥ y.overall then x :: y :: ys else y :: insertDesc x ys

/-- The stable descending sort modelling
`scoredRegions.sort((a, b) => b.overall - a.overall)` (line 496):
ECMAScript Array.prototype.sort is stable, so elements with equal
overall scores keep their original (catalog) order. -/
def sortDesc : List ScoredRegion → List ScoredRegion
  | [] => []
  | x :: xs => insertDesc x (sortDesc xs)

/-- The first element of a list attaining the maximum overall score
(used to characterize the head of the stable descending sort). -/
def firstMax : List ScoredRegion → Option ScoredRegion
  | [] => none
  | x :: xs =>
    match firstMax xs with
    | none => some x
    | some m => if x.overall ≥ m.overall then some x else some m

/-- The fixed per-strategy instance class (lines 500-507). -/
def instanceClassFor (sid : String) : String :=
  if sid = "max-green" then "eco-small"
  else if sid = "budget" then "standard-small"
  else "standard-medium"

/-- The per-strategy description string (lines 514-519). -/
def descriptionFor (sid : String) : String :=
  if sid = "max-green" then
    "Prioritizes regions with lower carbon intensity while still keeping latency and cost within acceptable bounds."
  else if sid = "budget" then
    "Prioritizes lower-cost regions and instance types, while keeping latency and carbon footprint reasonable."
  else
    "Balanced trade-off between carbon efficiency, latency, and cost for general workloads."

/-- `Math.round(x * 100) / 100` (line 509); JavaScript Math.round
is floor(x + 1/2). -/
def rounded (x : ℚ) : ℚ := ((⌊x * 100 + 1/2⌋ : ℤ) : ℚ) / 100

/-- The rounded score quadruple of a plan (lines 520-525). -/
structure PlanScores where
  co2 : ℚ
  latency : ℚ
  cost : ℚ
  overall : ℚ
deriving DecidableEq

/-- The civo block of a plan (lines 530-536). -/
structure CivoInfo where
  region : String
  regionLabel : String
  clusterType : String
  instanceClass : String
  replicas : ℕ
deriving DecidableEq

/-- One plan object of the /api/plan response (lines 511-557). -/
structure PlanOut where
  id : String
  label : String
  description : String
  scores : PlanScores
  carbonIntensity_value : ℚ
  carbonIntensity_source : String
  civo : CivoInfo
  notes : List String
  kubernetesYaml : String
deriving DecidableEq

/-- The strategies array of /api/plan (lines 471-475). -/
def strategies : List (String × String) :=
  [("balanced", "Balanced"), ("max-green", "Max Green"), ("budget", "Budget Friendly")]

/-- The body of the per-strategy loop of /api/plan (lines 479-560):
weights, overall scores, stable descending sort, best region at index
0, fixed instance class, rounded scores, notes and manifest. -/
def planForStrategy (strategy : String × String) (latencyTolerance : String)
    (rscores : List RegionScore) (recommendedReplicas : ℕ)
    (components : List Component) : PlanOut :=
  let sid := strategy.1
  let slabel := strategy.2
  let weights := getWeights sid latencyTolerance
  let scoredRegions := rscores.map (scoreFor weights)
  let best := (sortDesc scoredRegions).headI
  let instanceClass := instanceClassFor sid
  { id := sid,
    label := slabel ++ " Plan",
    description := descriptionFor sid,
    scores := { co2 := rounded best.co2, latency := rounded best.latency,
                cost := rounded best.cost, overall := rounded best.overall },
    carbonIntensity_value := rounded best.liveCarbonIntensity,
    carbonIntensity_source := best.carbonSource,
    civo := { region := best.region.id, regionLabel := best.region.label,
              clusterType := "kubernetes", instanceClass := instanceClass,
              replicas := recommendedReplicas },
    notes :=
      [ "Strategy: " ++ slabel,
        "Selected region " ++ best.region.id ++ " (" ++ best.region.label ++
          ") based on combined CO2, latency, and cost scores.",
        "Estimated grid carbon intensity: " ++ toString (rounded best.liveCarbonIntensity) ++
          " gCO2eq/kWh (source: " ++ best.carbonSource ++ ").",
        "Recommended replicas: " ++ toString recommendedReplicas ++ " (derived from " ++
          toString (countRuntimeComponents components) ++ " runtime components and \"" ++
          latencyTolerance ++ "\" latency tolerance).",
        "Weights used - CO2: " ++ toString (rounded weights.co2) ++ ", Latency: " ++
          toString (rounded weights.latency) ++ ", Cost: " ++ toString (rounded weights.cost) ++ "." ],
    kubernetesYaml := generateKubernetesYaml sid best.region.id instanceClass
      recommendedReplicas components }

/-- The components field of a request body: absent (the destructuring
default [] then fails the length check), present but not an array
(fails Array.isArray), or an array of components. -/
inductive ComponentsField
  | missing
  | notArray
  | array (cs : List Component)
deriving DecidableEq

/-- The /api/plan request body after JSON parsing; none on an
optional field models an absent property, handled by the
destructuring defaults of lines 429-434. -/
structure PlanRequestBody where
  components : ComponentsField
  userRegion : Option String
  latencyTolerance : Option String
  optimizationPreference : Option String
deriving DecidableEq

/-- The inputEcho block of the response (lines 563-568). -/
structure InputEcho where
  components : List Component
  userRegion : String
  latencyTolerance : String
  optimizationPreference : String
deriving DecidableEq

/-- The success payload of /api/plan (lines 562-573). -/
structure PlanSuccess where
  inputEcho : InputEcho
  electricityMapsEnabled : Bool
  plans : List PlanOut
deriving DecidableEq

/-- The /api/plan response: a 400 validation error or the plans. -/
inductive PlanResponse
  | badRequest (error : String)
  | ok (result : PlanSuccess)
deriving DecidableEq

/-- The /api/plan handler (src/server.js, lines 428-574).  The
awaited per-region carbon readings are passed in as carbonResults
(one reading per catalog region, produced by
getCarbonIntensityForRegion); validation rejects a missing,
non-array or empty components list before anything else. -/
def handlePlan (apiKey : String) (body : PlanRequestBody)
    (carbonResults : List CarbonReading) : PlanResponse :=
  match body.components with
  | .array (c :: cs) =>
    let components := c :: cs
    let userRegion := body.userRegion.getD "global"
    let latencyTolerance := body.latencyTolerance.getD "balanced"
    let optimizationPreference := body.optimizationPreference.getD "balanced"
    let rscores := regionScores userRegion carbonResults
    let recommendedReplicas := calcReplicas components latencyTolerance
    let plans := strategies.map (fun s =>
      planForStrategy s latencyTolerance rscores recommendedReplicas components)
    .ok { inputEcho := { components := components, userRegion := userRegion,
                         latencyTolerance := latencyTolerance,
                         optimizationPreference := optimizationPreference },
          electricityMapsEnabled := apiKey != "",
          plans := plans }
  | _ => .badRequest "At least one component is required to generate a plan."

/-- Observation: the plans of a response, none on a 400. -/
def plansOf : PlanResponse → Option (List PlanOut)
  | .badRequest _ => none
  | .ok r => some r.plans

/-- Observation: the echoed optimizationPreference, none on a 400. -/
def prefEchoOf : PlanResponse → Option String
  | .badRequest _ => none
  | .ok r => some r.inputEcho.optimizationPreference

/-! Helper lemmas about list minima and maxima. -/

theorem foldl_min_le_init (l : List ℚ) : ∀ a : ℚ, l.foldl min a ≤ a := by
  induction l with
  | nil => intro a; exact le_refl a
  | cons x xs ih => intro a; exact le_trans (ih (min a x)) (min_le_left a x)

theorem foldl_min_le_mem (l : List ℚ) : ∀ a y : ℚ, y ∈ l → l.foldl min a ≤ y := by
  induction l with
  | nil => intro a y hy; cases hy
  | cons x xs ih =>
    intro a y hy
    rcases List.mem_cons.1 hy with rfl | hy2
    · exact le_trans (foldl_min_le_init xs (min a y)) (min_le_right a y)
    · exact ih (min a x) y hy2

theorem listMinQ_le (l : List ℚ) (y : ℚ) (hy : y ∈ l) : listMinQ l ≤ y := by
  cases l with
  | nil => cases hy
  | cons x xs =>
    rcases List.mem_cons.1 hy with rfl | h
    · exact foldl_min_le_init xs y
    · exact foldl_min_le_mem xs x y h

theorem init_le_foldl_max (l : List ℚ) : ∀ a : ℚ, a ≤ l.foldl max a := by
  induction l with
  | nil => intro a; exact le_refl a
  | cons x xs ih => intro a; exact le_trans (le_max_left a x) (ih (max a x))

theorem mem_le_foldl_max (l : List ℚ) : ∀ a y : ℚ, y ∈ l → y ≤ l.foldl max a := by
  induction l with
  | nil => intro a y hy; cases hy
  | cons x xs ih =>
    intro a y hy
    rcases List.mem_cons.1 hy with rfl | hy2
    · exact le_trans (le_max_right a y) (init_le_foldl_max xs (max a y))
    · exact ih (max a x) y hy2

theorem le_listMaxQ (l : List ℚ) (y : ℚ) (hy : y ∈ l) : y ≤ listMaxQ l := by
  cases l with
  | nil => cases hy
  | cons x xs =>
    rcases List.mem_cons.1 hy with rfl | h
    · exact init_le_foldl_max xs y
    · exact mem_le_foldl_max xs x y h

theorem listMinQ_le_listMaxQ (l : List ℚ) (h : l ≠ []) : listMinQ l ≤ listMaxQ l := by
  cases l with
  | nil => exact absurd rfl h
  | cons x xs =>
    exact le_trans (listMinQ_le (x :: xs) x (List.mem_cons_self x xs))
      (le_listMaxQ (x :: xs) x (List.mem_cons_self x xs))

theorem foldl_max_comm (l : List ℚ) : ∀ a b : ℚ, l.foldl max (max a b) = max a (l.foldl max b) := by
  induction l with
  | nil => intro a b; rfl
  | cons c t ih =>
    intro a b
    show t.foldl max (max (max a b) c) = max a (t.foldl max (max b c))
    rw [max_assoc, ih]

theorem listMaxQ_cons (a y : ℚ) (t : List ℚ) :
    listMaxQ (a :: y :: t) = max a (listMaxQ (y :: t)) := by
  show t.foldl max (max a y) = max a (t.foldl max y)
  exact foldl_max_comm t a y

/-! Helper lemmas for the inverted-values vector. -/

theorem length_invertedValues (values : List ℚ) (invert : Bool) :
    (invertedValues values invert).length = values.length := by
  cases invert <;> simp [invertedValues]

theorem invertedValues_ne_nil (values : List ℚ) (invert : Bool) (h : values ≠ []) :
    invertedValues values invert ≠ [] := by
  cases invert <;> simp [invertedValues, h]

/-- C5: for every numeric vector and invert flag, normalizeScores
returns a same-length vector with every element in [0,1]; if the max
of the (possibly negated) inputs equals the min, every output is 0.7;
otherwise the output applies min-max scaling index-by-index, so the
minimum input after inversion maps to 0 and the maximum maps to 1;
the empty vector maps to the empty vector without error. -/
theorem normalizeScores_spec (values : List ℚ) (invert : Bool) :
    normalizeScores [] invert = [] ∧
    (normalizeScores values invert).length = values.length ∧
    (∀ s ∈ normalizeScores values invert, 0 ≤ s ∧ s ≤ 1) ∧
    (values ≠ [] →
      (listMaxQ (invertedValues values invert) = listMinQ (invertedValues values invert) →
        normalizeScores values invert = (invertedValues values invert).map (fun _ => (0.7 : ℚ))) ∧
      (listMaxQ (invertedValues values invert) ≠ listMinQ (invertedValues values invert) →
        normalizeScores values invert = (invertedValues values invert).map
          (fun x => (x - listMinQ (invertedValues values invert)) /
            (listMaxQ (invertedValues values invert) - listMinQ (invertedValues values invert))) ∧
        (∀ i, i < values.length →
          ((invertedValues values invert).getD i 0 = listMinQ (invertedValues values invert) →
            (normalizeScores values invert).getD i 0 = 0) ∧
          ((invertedValues values invert).getD i 0 = listMaxQ (invertedValues values invert) →
            (normalizeScores values invert).getD i 0 = 1)))) := by
  by_cases hv : values = []
  · subst hv
    refine ⟨rfl, rfl, ?_, fun h => absurd rfl h⟩
    intro s hs
    simp [normalizeScores] at hs
  · have hemp : values.isEmpty = false := by
      cases values with
      | nil => exact absurd rfl hv
      | cons a t => rfl
    have hvne : invertedValues values invert ≠ [] := invertedValues_ne_nil values invert hv
    have hminmax : listMinQ (invertedValues values invert) ≤ listMaxQ (invertedValues values invert) :=
      listMinQ_le_listMaxQ _ hvne
    constructor
    · rfl
    constructor
    · rw [normalizeScores, hemp]
      simp only [Bool.false_eq_true, if_false]
      split
      · rw [List.length_map, length_invertedValues]
      · rw [List.length_map, length_invertedValues]
    constructor
    · intro s hs
      rw [normalizeScores, hemp] at hs
      simp only [Bool.false_eq_true, if_false] at hs
      by_cases heq : listMaxQ (invertedValues values invert) = listMinQ (invertedValues values invert)
      · rw [if_pos heq] at hs
        rcases List.mem_map.1 hs with ⟨x, _, rfl⟩
        norm_num
      · rw [if_neg heq] at hs
        rcases List.mem_map.1 hs with ⟨x, hx, rfl⟩
        have hxmin : listMinQ (invertedValues values invert) ≤ x := listMinQ_le _ x hx
        have hxmax : x ≤ listMaxQ (invertedValues values invert) := le_listMaxQ _ x hx
        have hpos : 0 < listMaxQ (invertedValues values invert) - listMinQ (invertedValues values invert) := by
          rcases lt_or_eq_of_le hminmax with hlt | he
          · linarith
          · exact absurd he.symm heq
        constructor
        · exact div_nonneg (by linarith) (le_of_lt hpos)
        · rw [div_le_one hpos]; linarith
    · intro _
      constructor
      · intro heq
        rw [normalizeScores, hemp]
        simp only [Bool.false_eq_true, if_false]
        rw [if_pos heq]
      · intro heq
        have heqn : normalizeScores values invert = (invertedValues values invert).map
            (fun x => (x - listMinQ (invertedValues values invert)) /
              (listMaxQ (invertedValues values invert) - listMinQ (invertedValues values invert))) := by
          rw [normalizeScores, hemp]
          simp only [Bool.false_eq_true, if_false]
          rw [if_neg heq]
        refine ⟨heqn, ?_⟩
        intro i hi
        have hiv : i < (invertedValues values invert).length := by
          rw [length_invertedValues]; exact hi
        have hget : ∀ d : ℚ, (normalizeScores values invert).getD i d =
            ((invertedValues values invert).getD i 0 - listMinQ (invertedValues values invert)) /
              (listMaxQ (invertedValues values invert) - listMinQ (invertedValues values invert)) := by
          intro d
          rw [heqn]
          rw [List.getD_eq_getElem _ _ (by rw [List.length_map]; exact hiv)]
          rw [List.getElem_map]
          rw [List.getD_eq_getElem _ _ hiv]
        have hpos : 0 < listMaxQ (invertedValues values invert) - listMinQ (invertedValues values invert) := by
          rcases lt_or_eq_of_le hminmax with hlt | he
          · linarith
          · exact absurd he.symm heq
        constructor
        · intro hmin
          rw [hget 0, hmin]
          rw [sub_self, zero_div]
        · intro hmax
          rw [hget 0, hmax]
          rw [div_self (ne_of_gt hpos)]

/-- C5 witness: concrete instantiation of normalizeScores_spec with
all hypotheses discharged at values = [1, 3], invert = false. -/
theorem normalizeScores_spec_witness :
    normalizeScores [(1 : ℚ), 3] false = (invertedValues [(1 : ℚ), 3] false).map
      (fun x => (x - listMinQ (invertedValues [(1 : ℚ), 3] false)) /
        (listMaxQ (invertedValues [(1 : ℚ), 3] false) - listMinQ (invertedValues [(1 : ℚ), 3] false))) :=
  ((((normalizeScores_spec [(1 : ℚ), 3] false).2.2.2 (by simp)).2 (by norm_num [invertedValues, listMinQ, listMaxQ]))).1

/-- C6: for every Strategy in the closed enumeration and every
LatencyTolerance, getWeights returns three non-negative weights that
sum exactly to 1 in rational arithmetic, obtained from the fixed base
weights by the multiplicative tolerance adjustment followed by
renormalization (the renormalization is the definition's final
division by the adjusted sum). -/
theorem getWeights_weights_valid (s t : String)
    (hs : s ∈ ["max-green", "budget", "balanced"])
    (ht : t ∈ ["strict", "balanced", "relaxed"]) :
    0 ≤ (getWeights s t).co2 ∧ 0 ≤ (getWeights s t).latency ∧ 0 ≤ (getWeights s t).cost ∧
    (getWeights s t).co2 + (getWeights s t).latency + (getWeights s t).cost = 1 := by
  simp only [List.mem_cons, List.not_mem_nil, or_false] at hs ht
  rcases hs with rfl | rfl | rfl <;> rcases ht with rfl | rfl | rfl <;>
    · simp +decide only [getWeights]
      norm_num

/-- C6 witness: getWeights_weights_valid at ("max-green", "strict"). -/
theorem getWeights_weights_valid_witness :
    0 ≤ (getWeights "max-green" "strict").co2 ∧
    0 ≤ (getWeights "max-green" "strict").latency ∧
    0 ≤ (getWeights "max-green" "strict").cost ∧
    (getWeights "max-green" "strict").co2 + (getWeights "max-green" "strict").latency +
      (getWeights "max-green" "strict").cost = 1 :=
  getWeights_weights_valid "max-green" "strict" (by decide) (by decide)

/-- Math.ceil of a natural number divided by two equals (n+1)/2 in
natural division. -/
theorem ceil_nat_half (n : ℕ) : (⌈((n : ℚ)) / 2⌉ : ℤ) = ((n + 1) / 2 : ℕ) := by
  rw [Int.ceil_eq_iff]
  have h1 : (n : ℤ) ≤ 2 * ((n + 1) / 2 : ℕ) := by omega
  have h2 : (((n + 1) / 2 : ℕ) : ℤ) * 2 ≤ (n : ℤ) + 1 := by omega
  constructor
  · have hq : ((((n + 1) / 2 : ℕ) : ℤ) : ℚ) * 2 ≤ ((n : ℤ) : ℚ) + 1 := by exact_mod_cast h2
    push_cast at hq ⊢
    linarith
  · have hq : ((n : ℤ) : ℚ) ≤ 2 * ((((n + 1) / 2 : ℕ) : ℤ) : ℚ) := by exact_mod_cast h1
    push_cast at hq ⊢
    linarith

/-- C7: calcReplicas always lies in [1,4] and equals
max(1, ceil(runtimeCount/2)), plus 1 when the tolerance is strict and
runtimeCount exceeds 1, clamped to at most 4, where runtimeCount
counts the components whose type is in the runtime set. -/
theorem calcReplicas_spec (components : List Component) (t : String) :
    1 ≤ calcReplicas components t ∧ calcReplicas components t ≤ 4 ∧
    (calcReplicas components t : ℤ) =
      min 4 (max 1 ⌈((countRuntimeComponents components : ℚ)) / 2⌉ +
        (if t = "strict" ∧ countRuntimeComponents components > 1 then 1 else 0)) := by
  rw [ceil_nat_half (countRuntimeComponents components)]
  have hnat : calcReplicas components t =
      min 4 (max 1 ((countRuntimeComponents components + 1) / 2) +
        (if t = "strict" ∧ countRuntimeComponents components > 1 then 1 else 0)) := by
    rw [calcReplicas]
    split_ifs <;> omega
  refine ⟨?_, ?_, ?_⟩
  · rw [hnat]; omega
  · rw [hnat]; omega
  · rw [hnat]
    split_ifs <;> push_cast <;> omega

/-- C8: doubling the runtime-component count while holding the
tolerance fixed never decreases the replica count. -/
theorem calcReplicas_double_mono (l1 l2 : List Component) (t : String)
    (h : countRuntimeComponents l2 = 2 * countRuntimeComponents l1) :
    calcReplicas l1 t ≤ calcReplicas l2 t := by
  rw [calcReplicas, calcReplicas]
  by_cases ht : t = "strict"
  · simp only [ht, true_and]
    split_ifs <;> omega
  · have h1 : ¬(t = "strict" ∧ countRuntimeComponents l1 > 1) := fun hc => ht hc.1
    have h2 : ¬(t = "strict" ∧ countRuntimeComponents l2 > 1) := fun hc => ht hc.1
    rw [if_neg h1, if_neg h2]
    split_ifs <;> omega

/-- C8 witness: calcReplicas_double_mono on one versus two runtime
containers under strict tolerance. -/
theorem calcReplicas_double_mono_witness :
    countRuntimeComponents [⟨"a", "container"⟩, ⟨"b", "container"⟩] =
      2 * countRuntimeComponents [⟨"a", "container"⟩] ∧
    calcReplicas [⟨"a", "container"⟩] "strict" ≤
      calcReplicas [⟨"a", "container"⟩, ⟨"b", "container"⟩] "strict" :=
  ⟨by decide, calcReplicas_double_mono [⟨"a", "container"⟩]
    [⟨"a", "container"⟩, ⟨"b", "container"⟩] "strict" (by decide)⟩

/-! Helper lemmas characterizing the head of the stable descending
sort as the first element attaining the maximum overall score. -/

theorem firstMax_ne_none (x : ScoredRegion) (xs : List ScoredRegion) :
    firstMax (x :: xs) ≠ none := by
  rw [firstMax]
  cases firstMax xs with
  | none => simp
  | some m => by_cases h : x.overall ≥ m.overall <;> simp [h]

theorem head?_sortDesc (l : List ScoredRegion) : (sortDesc l).head? = firstMax l := by
  induction l with
  | nil => rfl
  | cons x xs ih =>
    show (insertDesc x (sortDesc xs)).head? = firstMax (x :: xs)
    cases hm : sortDesc xs with
    | nil =>
      rw [hm] at ih
      rw [firstMax, ← ih]
      rfl
    | cons m rest =>
      rw [hm] at ih
      rw [firstMax, ← ih]
      by_cases hcmp : x.overall ≥ m.overall
      · rw [insertDesc, if_pos hcmp]
        simp [hcmp]
      · rw [insertDesc, if_neg hcmp]
        simp [hcmp]

theorem firstMax_overall : ∀ (l : List ScoredRegion) (m : ScoredRegion),
    firstMax l = some m → m.overall = listMaxQ (l.map ScoredRegion.overall) := by
  intro l
  induction l with
  | nil => intro m hm; cases hm
  | cons x xs ih =>
    intro m hm
    cases hxs : xs with
    | nil =>
      subst hxs
      rw [firstMax] at hm
      simp only [firstMax] at hm
      injection hm with hm2
      subst hm2
      rfl
    | cons y t =>
      subst hxs
      obtain ⟨m0, hm0⟩ : ∃ m0, firstMax (y :: t) = some m0 := by
        cases hh : firstMax (y :: t) with
        | none => exact absurd hh (firstMax_ne_none y t)
        | some m0 => exact ⟨m0, rfl⟩
      have hov := ih m0 hm0
      rw [firstMax, hm0] at hm
      have hm2 : (if x.overall ≥ m0.overall then some x else some m0) = some m := hm
      have hM : listMaxQ ((x :: y :: t).map ScoredRegion.overall) =
          max x.overall (listMaxQ ((y :: t).map ScoredRegion.overall)) := by
        rw [List.map_cons, List.map_cons]
        exact listMaxQ_cons x.overall y.overall (t.map ScoredRegion.overall)
      by_cases hc : x.overall ≥ m0.overall
      · rw [if_pos hc] at hm2
        injection hm2 with hm3
        subst hm3
        rw [hM, ← hov]
        exact (max_eq_left hc).symm
      · rw [if_neg hc] at hm2
        injection hm2 with hm3
        subst hm3
        rw [hM, ← hov]
        exact (max_eq_right (le_of_lt (lt_of_not_ge hc))).symm

theorem firstMax_eq_find? : ∀ l : List ScoredRegion,
    firstMax l = l.find? (fun r => decide (r.overall = listMaxQ (l.map ScoredRegion.overall))) := by
  intro l
  induction l with
  | nil => rfl
  | cons x xs ih =>
    cases hxs : xs with
    | nil =>
      subst hxs
      simp [firstMax, List.find?, listMaxQ]
    | cons y t =>
      subst hxs
      obtain ⟨m0, hm0⟩ : ∃ m0, firstMax (y :: t) = some m0 := by
        cases hh : firstMax (y :: t) with
        | none => exact absurd hh (firstMax_ne_none y t)
        | some m0 => exact ⟨m0, rfl⟩
      have hov := firstMax_overall (y :: t) m0 hm0
      have hfm : firstMax (x :: y :: t) = if x.overall ≥ m0.overall then some x else some m0 := by
        rw [firstMax, hm0]
      have hM : listMaxQ ((x :: y :: t).map ScoredRegion.overall) =
          max x.overall (listMaxQ ((y :: t).map ScoredRegion.overall)) := by
        rw [List.map_cons, List.map_cons]
        exact listMaxQ_cons x.overall y.overall (t.map ScoredRegion.overall)
      by_cases hc : x.overall ≥ m0.overall
      · have hMx : listMaxQ ((x :: y :: t).map ScoredRegion.overall) = x.overall := by
          rw [hM, ← hov]
          exact max_eq_left hc
        rw [hfm, if_pos hc]
        have hpx : (decide (x.overall = listMaxQ ((x :: y :: t).map ScoredRegion.overall))) = true := by
          rw [hMx]
          simp
        simp only [List.find?_cons, hpx]
      · have hlt : x.overall < m0.overall := lt_of_not_ge hc
        have hMx : listMaxQ ((x :: y :: t).map ScoredRegion.overall) =
            listMaxQ ((y :: t).map ScoredRegion.overall) := by
          rw [hM, ← hov]
          exact max_eq_right (le_of_lt hlt)
        rw [hfm, if_neg hc]
        have hpx : (decide (x.overall = listMaxQ ((x :: y :: t).map ScoredRegion.overall))) = false := by
          rw [hMx, ← hov]
          exact decide_eq_false (ne_of_lt hlt)
        rw [List.find?_cons, hpx]
        show some m0 = List.find?
          (fun r => decide (r.overall = listMaxQ ((x :: y :: t).map ScoredRegion.overall))) (y :: t)
        simp only [hMx]
        rw [← ih, hm0]

theorem headI_eq_of_head? (l : List ScoredRegion) (a : ScoredRegion) (h : l.head? = some a) :
    l.headI = a := by
  cases l with
  | nil => cases h
  | cons x xs => exact Option.some.inj h

/-- C1: for every planning request (any caller affinity, any carbon
readings, any components) and every strategy, the region selected by
the per-strategy loop is the first element, in catalog iteration
order, of the scored-region vector attaining the maximum overall
score overall = co2*w_co2 + latency*w_latency + cost*w_cost; ties are
broken deterministically in favor of the earlier catalog entry
because the descending sort of line 496 is stable. -/
theorem plan_selects_first_argmax (strategy : String × String)
    (userRegion latencyTolerance : String) (carbonResults : List CarbonReading)
    (recommendedReplicas : ℕ) (components : List Component) :
    ∃ best,
      ((regionScores userRegion carbonResults).map
          (scoreFor (getWeights strategy.1 latencyTolerance))).find?
        (fun r => decide (r.overall = listMaxQ
          (((regionScores userRegion carbonResults).map
            (scoreFor (getWeights strategy.1 latencyTolerance))).map ScoredRegion.overall))) = some best ∧
      (planForStrategy strategy latencyTolerance (regionScores userRegion carbonResults)
          recommendedReplicas components).civo.region = best.region.id := by
  have hlen : (regionScores userRegion carbonResults).length = 6 := by
    rw [regionScores]
    rw [List.length_map, List.length_range]
    rfl
  obtain ⟨r0, rs, hrs⟩ : ∃ r0 rs, (regionScores userRegion carbonResults).map
      (scoreFor (getWeights strategy.1 latencyTolerance)) = r0 :: rs := by
    cases hc : (regionScores userRegion carbonResults).map
        (scoreFor (getWeights strategy.1 latencyTolerance)) with
    | nil =>
      have := congrArg List.length hc
      rw [List.length_map, hlen] at this
      cases this
    | cons a b => exact ⟨a, b, rfl⟩
  obtain ⟨best, hbest⟩ : ∃ best, firstMax ((regionScores userRegion carbonResults).map
      (scoreFor (getWeights strategy.1 latencyTolerance))) = some best := by
    rw [hrs]
    cases hh : firstMax (r0 :: rs) with
    | none => exact absurd hh (firstMax_ne_none r0 rs)
    | some m => exact ⟨m, rfl⟩
  refine ⟨best, ?_, ?_⟩
  · rw [← firstMax_eq_find?]
    exact hbest
  · show ((sortDesc ((regionScores userRegion carbonResults).map
        (scoreFor (getWeights strategy.1 latencyTolerance)))).headI).region.id = best.region.id
    rw [headI_eq_of_head? _ best (by rw [head?_sortDesc]; exact hbest)]

/-- C2 counterexample: an unrecognized strategy value reaching the
weight-computation and instance-class stages does not make the
computation fail; it is silently given the balanced strategy's
weights (the switch's default arm) and the standard-medium instance
class (the final else of lines 500-507). -/
theorem getWeights_unknown_silently_defaults :
    getWeights "mystery-strategy" "balanced" = getWeights "balanced" "balanced" ∧
    instanceClassFor "mystery-strategy" = instanceClassFor "balanced" ∧
    instanceClassFor "mystery-strategy" = "standard-medium" :=
  ⟨rfl, rfl, rfl⟩

/-- C2 (amended): every strategy value outside the recognized cases
"max-green" and "budget" (in particular every unrecognized value)
falls through to the balanced base weights and to the
standard-medium instance class; no failure occurs.  The /api/plan
loop itself only invokes these stages with the three fixed strategy
ids of the strategies list. -/
theorem getWeights_fallthrough_spec (s t : String)
    (h1 : s ≠ "max-green") (h2 : s ≠ "budget") :
    getWeights s t = getWeights "balanced" t ∧
    instanceClassFor s = "standard-medium" ∧
    strategies.map Prod.fst = ["balanced", "max-green", "budget"] := by
  refine ⟨?_, ?_, rfl⟩
  · rw [getWeights, getWeights]
    rw [if_neg h1, if_neg h2]
    rw [if_neg (by decide : ¬("balanced" : String) = "max-green")]
    rw [if_neg (by decide : ¬("balanced" : String) = "budget")]
  · rw [instanceClassFor]
    rw [if_neg h1, if_neg h2]

/-- C2 witness: getWeights_fallthrough_spec at a concrete
unrecognized strategy value. -/
theorem getWeights_fallthrough_witness :
    getWeights "mystery" "strict" = getWeights "balanced" "strict" ∧
    instanceClassFor "mystery" = "standard-medium" ∧
    strategies.map Prod.fst = ["balanced", "max-green", "budget"] :=
  getWeights_fallthrough_spec "mystery" "strict" (by decide) (by decide)

/-- C3 counterexample: on a successful fetch with a numeric payload,
the source tag of the returned reading is "electricitymaps", not the
"live" tag stated by the specification. -/
theorem carbon_source_tag_not_live :
    getCarbonIntensityForRegion "some-key" (FetchOutcome.ok (some 123))
      (REGIONS.getD 0 defaultRegion) =
      { value := 123, source := "electricitymaps" } ∧
    ("electricitymaps" : String) ≠ "live" :=
  ⟨rfl, by decide⟩

/-- C3 (amended): getCarbonIntensityForRegion never throws (it is a
total function into CarbonReading); on a missing API key, a missing
region zone mapping, a thrown fetch, a non-success response, or a
payload without a numeric carbonIntensity it returns the region's
static default with source "fallback-static"; otherwise it returns
the provider's value with source "electricitymaps". -/
theorem getCarbonIntensity_spec (apiKey : String) (outcome : FetchOutcome) (region : Region) :
    ((apiKey = "" ∨ REGION_ZONE_MAP region.id = none) →
      getCarbonIntensityForRegion apiKey outcome region =
        { value := region.defaultCarbonIntensity, source := "fallback-static" }) ∧
    (apiKey ≠ "" → REGION_ZONE_MAP region.id ≠ none →
      ((outcome = FetchOutcome.fetchErr ∨ outcome = FetchOutcome.notOk ∨
          outcome = FetchOutcome.ok none →
        getCarbonIntensityForRegion apiKey outcome region =
          { value := region.defaultCarbonIntensity, source := "fallback-static" }) ∧
       (∀ ci, outcome = FetchOutcome.ok (some ci) →
        getCarbonIntensityForRegion apiKey outcome region =
          { value := ci, source := "electricitymaps" }))) := by
  constructor
  · intro h
    rw [getCarbonIntensityForRegion.eq_def, if_pos h]
  · intro h1 h2
    have hno : ¬(apiKey = "" ∨ REGION_ZONE_MAP region.id = none) := by
      intro hc
      rcases hc with hc | hc
      · exact h1 hc
      · exact h2 hc
    constructor
    · rintro (rfl | rfl | rfl) <;> · rw [getCarbonIntensityForRegion.eq_def, if_neg hno]
    · rintro ci rfl
      rw [getCarbonIntensityForRegion.eq_def, if_neg hno]

/-- C3 witness: getCarbonIntensity_spec instantiated on the catalog's
first region with a present key and a numeric live value. -/
theorem getCarbonIntensity_spec_witness :
    getCarbonIntensityForRegion "some-key" (FetchOutcome.ok (some 5))
      (REGIONS.getD 0 defaultRegion) = { value := 5, source := "electricitymaps" } :=
  ((getCarbonIntensity_spec "some-key" (FetchOutcome.ok (some 5))
    (REGIONS.getD 0 defaultRegion)).2 (by decide) (by decide)).2 5 rfl

/-- C9: a planning request whose components field is missing, not an
array, or an empty array is answered with the validation error, and
the answer does not depend on the carbon readings in any way (the
readings are quantified on both sides), so no carbon fetching,
scoring, or plan computation influences the response and no partial
result is produced. -/
theorem invalid_components_rejected (apiKey : String) (body : PlanRequestBody)
    (cr : List CarbonReading) :
    handlePlan apiKey { body with components := ComponentsField.missing } cr =
      PlanResponse.badRequest "At least one component is required to generate a plan." ∧
    handlePlan apiKey { body with components := ComponentsField.notArray } cr =
      PlanResponse.badRequest "At least one component is required to generate a plan." ∧
    handlePlan apiKey { body with components := ComponentsField.array [] } cr =
      PlanResponse.badRequest "At least one component is required to generate a plan." :=
  ⟨rfl, rfl, rfl⟩

/-- C10: two planning requests identical except for the
optimizationPreference field, evaluated on identical carbon readings,
produce identical plans (selected regions, scores, replica counts,
instance classes, notes and manifests); the preference is only echoed
back in inputEcho. -/
theorem optimizationPreference_noninterference (apiKey : String) (body : PlanRequestBody)
    (p1 p2 : Option String) (cr : List CarbonReading) :
    plansOf (handlePlan apiKey { body with optimizationPreference := p1 } cr) =
      plansOf (handlePlan apiKey { body with optimizationPreference := p2 } cr) ∧
    prefEchoOf (handlePlan apiKey { body with optimizationPreference := p1 } cr) =
      (plansOf (handlePlan apiKey { body with optimizationPreference := p1 } cr)).map
        (fun _ => p1.getD "balanced") := by
  obtain ⟨comps, ur, lt0, pref⟩ := body
  cases comps with
  | missing => exact ⟨rfl, rfl⟩
  | notArray => exact ⟨rfl, rfl⟩
  | array cs =>
    cases cs with
    | nil => exact ⟨rfl, rfl⟩
    | cons c rest => exact ⟨rfl, rfl⟩

/-! Helper lemmas for counting Service blocks in a manifest. -/

theorem ne_kindService_of_head (s : String) (c : Char) (hc : s.data.head? = some c)
    (h : c ≠ 'k') : s ≠ "kind: Service" := by
  intro he
  rw [he] at hc
  have h2 : ("kind: Service" : String).data.head? = some 'k' := rfl
  rw [h2] at hc
  exact h (Option.some.inj hc).symm

theorem countServiceLines_append (a b : List String) :
    countServiceLines (a ++ b) = countServiceLines a + countServiceLines b := by
  rw [countServiceLines, countServiceLines, countServiceLines, List.filter_append,
    List.length_append]

theorem countServiceLines_namespace (planId : String) :
    countServiceLines (namespaceLines planId) = 0 := by
  rw [countServiceLines, List.length_eq_zero, List.filter_eq_nil_iff]
  intro x hx
  simp only [namespaceLines, List.mem_cons, List.not_mem_nil, or_false] at hx
  simp only [decide_eq_true_eq]
  rcases hx with rfl | rfl | rfl | rfl | rfl | rfl | rfl
  all_goals first
    | decide
    | exact ne_kindService_of_head _ _ rfl (by decide)

theorem countServiceLines_deployment (planId regionId instanceClass : String) (replicas : ℕ)
    (comp : Component) :
    countServiceLines (deploymentLines planId regionId instanceClass replicas comp) = 0 := by
  rw [countServiceLines, List.length_eq_zero, List.filter_eq_nil_iff]
  intro x hx
  simp only [deploymentLines, List.mem_cons, List.not_mem_nil, or_false] at hx
  simp only [decide_eq_true_eq]
  rcases hx with rfl | rfl | rfl | rfl | rfl | rfl | rfl | rfl | rfl | rfl | rfl | rfl | rfl |
    rfl | rfl | rfl | rfl | rfl | rfl | rfl | rfl | rfl | rfl | rfl | rfl | rfl | rfl | rfl |
    rfl | rfl | rfl | rfl | rfl
  all_goals first
    | decide
    | exact ne_kindService_of_head _ _ rfl (by decide)

theorem countServiceLines_flatten_deployments (planId regionId instanceClass : String)
    (replicas : ℕ) (l : List Component) :
    countServiceLines ((l.map (deploymentLines planId regionId instanceClass replicas)).flatten) = 0 := by
  induction l with
  | nil => rfl
  | cons c t ih =>
    rw [List.map_cons, List.flatten_cons, countServiceLines_append,
      countServiceLines_deployment, ih]

theorem countServiceLines_service (g : String) : countServiceLines (serviceLines g) = 1 := by
  have h1 : (decide (("  name: " ++ g ++ "-svc" : String) = "kind: Service")) = false :=
    decide_eq_false (ne_kindService_of_head _ _ rfl (by decide))
  have h2 : (decide (("    app: " ++ g : String) = "kind: Service")) = false :=
    decide_eq_false (ne_kindService_of_head _ _ rfl (by decide))
  rw [countServiceLines, serviceLines]
  simp +decide only [List.filter_cons, h1, h2, List.filter_nil, Bool.false_eq_true, if_false]

/-- C4 (amended): when the component list has at least one runtime
component, let g be the gatewayName computed at lines 299-305 (the
derived name of the api-gateway component if one exists, else of the
first runtime component, WITHOUT the "service" fallback).  If g is
nonempty the manifest contains exactly one exposed-service block,
whose selector line binds exactly g, which also equals the safeName
of the bound component (so the selector matches that workload unit's
generated name); but if the derived name is empty the gatewayName is
falsy and NO service block is emitted at all, even though the
corresponding workload unit is named by the fallback "service". -/
theorem manifest_service_block_spec (planId regionId instanceClass : String) (replicas : ℕ)
    (components : List Component) (g : String)
    (hg : chosenGatewayName (components.filter isRuntime) = some g) :
    (g ≠ "" →
      countServiceLines (generateKubernetesYamlLines planId regionId instanceClass replicas components) = 1 ∧
      serviceLines g <:+:
        generateKubernetesYamlLines planId regionId instanceClass replicas components ∧
      (∀ c, (components.filter isRuntime).find? (fun x => x.type == "api-gateway") = some c →
        g = deriveName c.name ∧ safeName c = g) ∧
      ((components.filter isRuntime).find? (fun x => x.type == "api-gateway") = none →
        ∀ c0, (components.filter isRuntime).head? = some c0 →
          g = deriveName c0.name ∧ safeName c0 = g)) ∧
    (g = "" →
      countServiceLines (generateKubernetesYamlLines planId regionId instanceClass replicas components) = 0) := by
  have hne : components.filter isRuntime ≠ [] := by
    intro h0
    rw [chosenGatewayName.eq_def, h0] at hg
    exact Option.noConfusion hg
  have hempty : (components.filter isRuntime).isEmpty = false := by
    cases hcc : components.filter isRuntime with
    | nil => exact absurd hcc hne
    | cons a b => rfl
  have hlines : generateKubernetesYamlLines planId regionId instanceClass replicas components =
      (namespaceLines planId ++
        ((components.filter isRuntime).map
          (deploymentLines planId regionId instanceClass replicas)).flatten) ++
      (if g = "" then [] else serviceLines g) := by
    simp only [generateKubernetesYamlLines, hempty, Bool.false_eq_true, if_false, hg]
    by_cases hgg : g = ""
    · rw [if_pos hgg, if_pos hgg, List.append_nil]
    · rw [if_neg hgg, if_neg hgg]
  constructor
  · intro hgne
    have hl2 : generateKubernetesYamlLines planId regionId instanceClass replicas components =
        (namespaceLines planId ++
          ((components.filter isRuntime).map
            (deploymentLines planId regionId instanceClass replicas)).flatten) ++ serviceLines g := by
      rw [hlines, if_neg hgne]
    refine ⟨?_, ?_, ?_, ?_⟩
    · rw [hl2, countServiceLines_append, countServiceLines_append,
        countServiceLines_namespace, countServiceLines_flatten_deployments,
        countServiceLines_service]
    · rw [hl2]
      exact (List.suffix_append _ _).isInfix
    · intro c hc
      rw [chosenGatewayName.eq_def, hc] at hg
      have hgc : deriveName c.name = g := Option.some.inj hg
      refine ⟨hgc.symm, ?_⟩
      rw [safeName]
      simp only [hgc]
      rw [if_neg hgne]
    · intro hnone c0 hc0
      rw [chosenGatewayName.eq_def, hnone] at hg
      cases hcc : components.filter isRuntime with
      | nil => exact absurd hcc hne
      | cons a b =>
        rw [hcc] at hg hc0
        have hga : deriveName a.name = g := Option.some.inj hg
        have hca : a = c0 := Option.some.inj hc0
        subst hca
        refine ⟨hga.symm, ?_⟩
        rw [safeName]
        simp only [hga]
        rw [if_neg hgne]
  · intro hgeq
    rw [hlines, if_pos hgeq, List.append_nil, countServiceLines_append,
      countServiceLines_namespace, countServiceLines_flatten_deployments]

/-- C4 witness: a single api-gateway component named "api" yields
exactly one Service block. -/
theorem manifest_service_block_witness :
    countServiceLines (generateKubernetesYamlLines "max-green" "FRA1" "eco-small" 2
      [{ name := "api", type := "api-gateway" }]) = 1 :=
  ((manifest_service_block_spec "max-green" "FRA1" "eco-small" 2
      [{ name := "api", type := "api-gateway" }] "api" rfl).1 (by decide)).1

/-- C4 counterexample: a component list with one runtime component
(an api-gateway whose display name is empty, so the derived name is
empty) produces a manifest with NO exposed-service block, even though
the claim requires exactly one; the workload unit itself is emitted
under the fallback name "service". -/
theorem manifest_no_service_for_empty_name :
    countServiceLines (generateKubernetesYamlLines "balanced" "LON1" "standard-medium" 1
      [{ name := "", type := "api-gateway" }]) = 0 ∧
    "  name: service" ∈ generateKubernetesYamlLines "balanced" "LON1" "standard-medium" 1
      [{ name := "", type := "api-gateway" }] := by
  constructor
  · rfl
  · decide

end GreenOps
